import Mathlib

/-
Verification development for the MCDA geoprocessing pipeline in
`src/crud/mcda.py` (FastAPI + MinIO + rasterio/geopandas).

The shallow embedding below translates the five pipeline operations:
`perform_buffer_analysis`, `rasterize_vector`, `mask_raster`,
`upload_to_minio` / `get_raster_from_presigned_url`, and
`perform_weighted_overlay`.  External library behaviour (geometry math in
shapely/rasterio, the MinIO object store, the HTTP fetch, the filesystem
effect of `to_file`) is either abstracted by function parameters or, where a
claim depends on its semantics, modelled from the specification's words; each
such definition says so in its doc comment.  Numeric pixel values and
weights are modelled by `Rat` (exact arithmetic in place of IEEE floats);
integer-valued float32 cells of the rasterizer are modelled by `Int`.
-/

namespace Mcda

/-- A filesystem path, keeping the pieces of Python's `pathlib.Path` that the
code uses: the `parent` directory string and the `stem` and `suffix` of the
final component. -/
structure FPath where
  parent : String
  stem : String
  suffix : String
deriving DecidableEq, Repr

/-- An affine geotransform with the six rasterio coefficients
`(a, b, c, d, e, f)`: `x = a*col + b*row + c`, `y = d*col + e*row + f`. -/
structure Affine where
  a : Rat
  b : Rat
  c : Rat
  d : Rat
  e : Rat
  f : Rat
deriving DecidableEq, Repr

/-- The raster sample data types that occur in `src/crud/mcda.py`:
`rasterio.uint8` for the serialized rasterized file and `np.float32` for the
in-memory burn array. -/
inductive DType where
  | uint8
  | float32
deriving DecidableEq, Repr

/-- Failure outcomes of the crud layer.  `missingPrimaryFile` models the
`StopIteration` escaping from `next(p for p in file_paths if p.suffix ==
".shp")` when no primary vector file is present (the spec's
`MissingPrimaryFile`); `httpException` models a raised
`fastapi.HTTPException` with its status code and detail message;
`attributeError` models an uncaught Python `AttributeError`. -/
inductive McdaError where
  | missingPrimaryFile
  | httpException (status : Nat) (detail : String)
  | attributeError (detail : String)
deriving DecidableEq, Repr

/-- A vector feature geometry, abstracted by its all-touched footprint on the
reference pixel grid: `touches i j` holds exactly when the geometry touches
the cell in row `i`, column `j` at all (rasterio computes this footprint from
the geometry's coordinates; the code requests it with `all_touched=True`). -/
structure Geometry where
  touches : Nat → Nat → Bool

/-- The reference raster handed to `rasterize_vector`, keeping the fields the
code reads from the opened dataset: `shape` (height, width), `transform` and
`crs`. -/
structure RefRaster where
  width : Nat
  height : Nat
  transform : Affine
  crs : String

/-- The GeoTIFF written by `rasterize_vector`: creation options passed to
`rasterio.open(..., "w", ...)` plus the single band written by `dst.write`. -/
structure OutRaster where
  path : FPath
  crs : String
  transform : Affine
  dtype : DType
  count : Nat
  width : Nat
  height : Nat
  band : List (List Int)
deriving DecidableEq, Repr

/-- The cast of an in-memory float32 cell holding the integer `v` to a uint8
band sample, performed by `dst.write` because the dataset was created with
`dtype=rasterio.uint8`: numpy `astype` wraparound to the low 8 bits. -/
def narrowU8 (v : Int) : Int := v % 256

/-- One cell of `features.rasterize(geom_value, ..., fill=-99999,
merge_alg=MergeAlg.replace)`: starting from the fill value, each
(geometry, id) pair in order replaces the cell value whenever the geometry
touches the cell. -/
def burnCell (geomValue : List (Geometry × Int)) (fill : Int) (i j : Nat) : Int :=
  geomValue.foldl (fun acc p => if p.1.touches i j then p.2 else acc) fill

/-- The in-memory array produced by `features.rasterize` in
`rasterize_vector`: shape `(hh, ww)` taken from the reference raster, ids
`0..n-1` zipped to the features in iteration order, fill `-99999`,
all-touched burning with replace merge. -/
def rasterizedGrid (geoms : List Geometry) (hh ww : Nat) : List (List Int) :=
  (List.range hh).map (fun i =>
    (List.range ww).map (fun j =>
      burnCell (geoms.zip ((List.range geoms.length).map Int.ofNat)) (-99999) i j))

/-- Embedding of `rasterize_vector` (src/crud/mcda.py lines 113-166).  The
vector dataset read from the primary `.shp` path is abstracted by
`readVector` returning the feature geometries in iteration order (the
`set_crs(epsg=4326)` default only affects how the library interprets those
geometries and is absorbed into the abstraction).  The output file keeps the
reference raster's crs, transform, width and height, is created with
`dtype=rasterio.uint8` and `count=1`, and its band is the float32 burn array
narrowed cell by cell to uint8 by the write. -/
def rasterize_vector (file_paths : List FPath) (readVector : FPath → List Geometry)
    (raster : RefRaster) : Except McdaError OutRaster :=
  match file_paths.find? (fun p => p.suffix == ".shp") with
  | none => .error .missingPrimaryFile
  | some vector_file_path =>
    let vector := readVector vector_file_path
    let rasterized := rasterizedGrid vector raster.height raster.width
    .ok
      { path := ⟨vector_file_path.parent, vector_file_path.stem ++ "_rasterized", ".tif"⟩
        crs := raster.crs
        transform := raster.transform
        dtype := .uint8
        count := 1
        width := raster.width
        height := raster.height
        band := rasterized.map (fun row => row.map narrowU8) }

/-- A raster dataset on disk as `mask_raster` sees it: metadata (`src.meta`)
plus the pixel data and the nodata sentinel.  Pixel lookup is by
`data row col`. -/
structure SrcRaster where
  path : FPath
  crs : String
  transform : Affine
  dtype : DType
  count : Nat
  width : Nat
  height : Nat
  nodata : Int
  data : Nat → Nat → Int

/-- A boundary geometry handed to `rasterio.mask.mask`, abstracted by its
pixel-space bounding window on the source grid (`rmin..rmax`,
`cmin..cmax`) and its pixel membership test `inside row col`. -/
structure MaskGeom where
  rmin : Nat
  rmax : Nat
  cmin : Nat
  cmax : Nat
  inside : Nat → Nat → Bool

/-- Row lower bound of the combined bounding envelope of the mask
geometries. -/
def envRmin (g : MaskGeom) (gs : List MaskGeom) : Nat :=
  gs.foldl (fun acc s => min acc s.rmin) g.rmin

/-- Row upper bound of the combined bounding envelope of the mask
geometries. -/
def envRmax (g : MaskGeom) (gs : List MaskGeom) : Nat :=
  gs.foldl (fun acc s => max acc s.rmax) g.rmax

/-- Column lower bound of the combined bounding envelope of the mask
geometries. -/
def envCmin (g : MaskGeom) (gs : List MaskGeom) : Nat :=
  gs.foldl (fun acc s => min acc s.cmin) g.cmin

/-- Column upper bound of the combined bounding envelope of the mask
geometries. -/
def envCmax (g : MaskGeom) (gs : List MaskGeom) : Nat :=
  gs.foldl (fun acc s => max acc s.cmax) g.cmax

/-- The image, transform and shape returned by one `rasterio.mask.mask` call
with `crop=True, filled=True`. -/
structure MaskedImage where
  rows : Nat
  cols : Nat
  pix : Nat → Nat → Int
  transform : Affine

/-- Modelled from the spec: the behaviour of the external library call
`rasterio.mask.mask(src, shapes, crop=True, filled=True)`, which is not part
of this repository.  Per the spec, the output extent is cropped to the
combined bounding envelope of the mask geometries, the affine transform is
recomputed for the cropped extent (a pixel-offset translation of the source
transform), pixels outside all geometries are set to the nodata sentinel and
pixels inside some geometry keep their source value.  An empty shape list is
rejected by the library. -/
def rioMask (src : SrcRaster) (shapes : List MaskGeom) : Option MaskedImage :=
  match shapes with
  | [] => none
  | g :: gs =>
    let r0 := envRmin g gs
    let r1 := envRmax g gs
    let c0 := envCmin g gs
    let c1 := envCmax g gs
    some
      { rows := r1 + 1 - r0
        cols := c1 + 1 - c0
        pix := fun i j =>
          if (g :: gs).any (fun s => s.inside (r0 + i) (c0 + j)) then
            src.data (r0 + i) (c0 + j)
          else src.nodata
        transform :=
          { a := src.transform.a
            b := src.transform.b
            c := src.transform.c + src.transform.a * (c0 : Rat) + src.transform.b * (r0 : Rat)
            d := src.transform.d
            e := src.transform.e
            f := src.transform.f + src.transform.d * (c0 : Rat) + src.transform.e * (r0 : Rat) } }

/-- Embedding of `mask_raster` (src/crud/mcda.py lines 169-201): mask the
raster against the shapefile geometries, update `height`, `width` and
`transform` in the copied `src.meta` from the masked image, carry every other
metadata field over unchanged, and write to `<raster-stem>_masked.tif` next
to the input raster. -/
def mask_raster (raster : SrcRaster) (shapes : List MaskGeom) : Option SrcRaster :=
  match rioMask raster shapes with
  | none => none
  | some out_image =>
    some
      { raster with
        path := ⟨raster.path.parent, raster.path.stem ++ "_masked", ".tif"⟩
        height := out_image.rows
        width := out_image.cols
        transform := out_image.transform
        data := out_image.pix }

/-- Modelled from the spec: the MinIO bucket, an external service absent from
src, is keyed durable blob storage — a map from object keys to stored byte
content. -/
def Store : Type := String → Option (List Nat)

/-- Modelled from the spec: `client.put_object` stores bytes under a key with
last-write-wins overwrite semantics and no versioning. -/
def put_object (s : Store) (key : String) (content : List Nat) : Store :=
  fun k => if k = key then some content else s k

/-- Modelled from the spec: a presigned URL is a time-limited readable
address granting read access to exactly one stored object; it is modelled by
the key it grants access to. -/
structure PresignedUrl where
  key : String
deriving DecidableEq, Repr

/-- Modelled from the spec: `client.presigned_get_object` returns the
readable address for one key. -/
def presigned_get_object (key : String) : PresignedUrl := ⟨key⟩

/-- Embedding of `get_raster_from_presigned_url` (src/crud/mcda.py lines
50-67): dereference the presigned address against the store; a failed fetch
surfaces as an `HTTPException` with status 500. -/
def get_raster_from_presigned_url (s : Store) (url : PresignedUrl) :
    Except McdaError (List Nat) :=
  match s url.key with
  | some content => .ok content
  | none => .error (.httpException 500 "Failed to retrieve raster from URL")

/-- A local staging file about to be uploaded: its path and byte content. -/
structure LocalFile where
  path : FPath
  content : List Nat

/-- One entry of the JSON response built by `upload_to_minio`. -/
structure UploadResponse where
  bucket_name : String
  file_path : String
  presigned_url : PresignedUrl
deriving DecidableEq, Repr

/-- Embedding of `upload_to_minio` (src/crud/mcda.py lines 204-238): for each
file in order, put its bytes under the key `"mcda/" ++ name` into the bucket
`"bucket1"`, then record the bucket, key and presigned address in the
response list.  Returns the updated store together with the responses. -/
def upload_to_minio (s : Store) (files : List LocalFile) :
    Store × List UploadResponse :=
  files.foldl
    (fun acc f =>
      let file_name := "mcda/" ++ f.path.stem ++ f.path.suffix
      (put_object acc.1 file_name f.content,
        acc.2 ++ [⟨"bucket1", file_name, presigned_get_object file_name⟩]))
    (s, [])

/-- A raster band as a row-major grid of exact pixel values. -/
abbrev Grid := List (List Rat)

/-- Pixel lookup in a grid, defaulting to `0` out of range. -/
def cellAt (g : Grid) (i j : Nat) : Rat := (g.getD i []).getD j 0

/-- Elementwise numpy product `raster * weight`. -/
def scaleGrid (g : Grid) (w : Rat) : Grid :=
  g.map (fun row => row.map (fun x => x * w))

/-- Elementwise numpy sum of two equally shaped arrays. -/
def addGrid (g1 g2 : Grid) : Grid :=
  List.zipWith (fun r1 r2 => List.zipWith (fun x y => x + y) r1 r2) g1 g2

/-- Python's builtin `sum` over a list of numpy arrays: the initial scalar
`0` broadcast-added to the first array yields the first array, after which
the remaining arrays are accumulated elementwise. -/
def npSum (gs : List Grid) : Grid :=
  match gs with
  | [] => []
  | g :: rest => rest.foldl addGrid g

/-- The `sum(raster * weight for raster, weight in zip(raster_arrays,
weights))` expression of `perform_weighted_overlay` (src/crud/mcda.py line
281): `zip` truncates to the shorter of the two lists. -/
def weightedSum (raster_arrays : List Grid) (weights : List Rat) : Grid :=
  npSum ((raster_arrays.zip weights).map (fun p => scaleGrid p.1 p.2))

/-- The result raster written by `perform_weighted_overlay`: the fixed output
path and the single band holding the weighted overlay (the reused metadata of
the first opened input is not modelled). -/
structure OverlayOut where
  path : FPath
  band : Grid
deriving DecidableEq, Repr

/-- Embedding of `perform_weighted_overlay` (src/crud/mcda.py lines 241-299).
Fetching a presigned URL and decoding band 1 of the downloaded GeoTIFF is
abstracted by `fetchBand`; `raster_urls.map fetchBand` is the fetched array
list in order and the weighted overlay is the zip-truncated weighted sum of
line 281, written to the fixed path `/tmp/result_weighted_overlay.tif`.
When the zip of arrays and weights is empty (one of the two lists is
empty), Python's builtin `sum` returns the scalar `0` instead of an array
and the write then fails at `weighted_overlay.shape[0]` (line 290) with an
uncaught AttributeError; that failure is the error branch here. -/
def perform_weighted_overlay (fetchBand : String → Grid)
    (raster_urls : List String) (weights : List Rat) :
    Except McdaError OverlayOut :=
  if (raster_urls.map fetchBand).zip weights = [] then
    .error (.attributeError "int object has no attribute shape")
  else
    .ok ⟨⟨"/tmp", "result_weighted_overlay", ".tif"⟩,
      weightedSum (raster_urls.map fetchBand) weights⟩

/-- A geopandas `GeoDataFrame` reduced to what `perform_buffer_analysis`
touches: an optional CRS (an EPSG code) and the geometry column. -/
structure GeoDataFrame (Geo : Type) where
  crs : Option Nat
  geometry : List Geo

/-- The five output paths `<stem>_buffered.{shp,shx,dbf,cpg,prj}` listed in
`perform_buffer_analysis` (src/crud/mcda.py lines 90-99), in source order. -/
def buffered_output_files (file_path : FPath) : List FPath :=
  [⟨file_path.parent, file_path.stem ++ "_buffered", ".shp"⟩,
   ⟨file_path.parent, file_path.stem ++ "_buffered", ".shx"⟩,
   ⟨file_path.parent, file_path.stem ++ "_buffered", ".dbf"⟩,
   ⟨file_path.parent, file_path.stem ++ "_buffered", ".cpg"⟩,
   ⟨file_path.parent, file_path.stem ++ "_buffered", ".prj"⟩]

/-- Embedding of `perform_buffer_analysis` (src/crud/mcda.py lines 70-110).
The shapely buffer operation is abstracted by `bufferBy` (applied with the
fixed distance `0.0038` from the source) and the filesystem state after
`gdf.to_file` by the predicate `fs`.  If the input has no CRS it is assigned
EPSG:4326 before buffering; every geometry is then buffered, the layer is
written as the `<stem>_buffered` multi-file dataset, and the function fails
with the source's `HTTPException(500, ...)` unless all five component files
exist after the write.  Returns the written dataset and the path list. -/
def perform_buffer_analysis {Geo : Type} (bufferBy : Geo → Rat → Geo)
    (fs : FPath → Bool) (file_path : FPath) (gdf : GeoDataFrame Geo) :
    Except McdaError (GeoDataFrame Geo × List FPath) :=
  let gdf1 := if gdf.crs.isNone then { gdf with crs := some 4326 } else gdf
  let gdf2 := { gdf1 with geometry := gdf1.geometry.map (fun g => bufferBy g (38 / 10000)) }
  let output_files := buffered_output_files file_path
  if output_files.all fs then .ok (gdf2, output_files)
  else .error (.httpException 500 "Failed to save all the buffered shapefile components")

/-- A grid has shape `hh × ww`: `hh` rows, each of length `ww`. -/
def HasShape (g : Grid) (hh ww : Nat) : Prop :=
  g.length = hh ∧ ∀ row ∈ g, row.length = ww

instance (g : Grid) (hh ww : Nat) : Decidable (HasShape g hh ww) :=
  decidable_of_iff (g.length = hh ∧ ∀ row ∈ g, row.length = ww) Iff.rfl

/-- Fixture: an upload whose path list contains a primary `.shp` file. -/
def fpsShp : List FPath := [⟨"/tmp", "river_dang", ".shp"⟩]

/-- Fixture: an upload whose path list contains no primary `.shp` file. -/
def fpsNoShp : List FPath :=
  [⟨"/tmp", "river_dang", ".dbf"⟩, ⟨"/tmp", "river_dang", ".shx"⟩]

/-- Fixture: a vector dataset with no features. -/
def readNone : FPath → List Geometry := fun _ => []

/-- Fixture: a 1×1 reference raster with the identity transform. -/
def refR : RefRaster := ⟨1, 1, ⟨1, 0, 0, 0, 1, 0⟩, "EPSG:4326"⟩

/-- Fixture: the raster `rasterize_vector` produces from `fpsShp`, `readNone`
and `refR`; its single cell is the fill `-99999` narrowed to the uint8 value
`97`. -/
def outR : OutRaster :=
  ⟨⟨"/tmp", "river_dang_rasterized", ".tif"⟩, "EPSG:4326", ⟨1, 0, 0, 0, 1, 0⟩,
    .uint8, 1, 1, 1, [[97]]⟩

/-- Fixture: a geometry touching every grid cell. -/
def geomAll : Geometry := ⟨fun _ _ => true⟩

/-- Fixture: a geometry touching no grid cell. -/
def geomNone : Geometry := ⟨fun _ _ => false⟩

/-- Fixture: a 4×4 source raster with constant pixel value 7 and nodata
sentinel -1. -/
def srcR : SrcRaster :=
  ⟨⟨"/tmp", "river_dang_buffered_rasterized", ".tif"⟩, "EPSG:4326",
    ⟨1, 0, 0, 0, 1, 0⟩, .uint8, 1, 4, 4, -1, fun _ _ => 7⟩

/-- Fixture: a mask geometry with bounding window rows 0..1, cols 0..1
covering only the cell (0, 0). -/
def maskG : MaskGeom := ⟨0, 1, 0, 1, fun i j => i == 0 && j == 0⟩

/-- Fixture: an input path for the buffer stage. -/
def bufPath : FPath := ⟨"/tmp", "river_dang", ".shp"⟩

/-- Fixture: a dataset with no CRS and no features. -/
def gdfNoCrs : GeoDataFrame Unit := ⟨none, []⟩

/-- Fixture: a filesystem on which every path exists. -/
def fsAll : FPath → Bool := fun _ => true

/-- Fixture: a trivial buffer operation on point-like features. -/
def bufId : Unit → Rat → Unit := fun u _ => u

/-- Scaling acts cellwise, with the out-of-range default `0` absorbed by
`0 * w = 0`. -/
theorem cellAt_scaleGrid (g : Grid) (w : Rat) (i j : Nat) :
    cellAt (scaleGrid g w) i j = cellAt g i j * w := by
  unfold cellAt scaleGrid
  simp only [List.getD_eq_getElem?_getD, List.getElem?_map]
  cases hrow : g[i]? with
  | none => simp
  | some row =>
    simp only [Option.map_some', Option.getD_some, List.getElem?_map]
    cases hx : row[j]? with
    | none => simp
    | some x => simp

/-- Elementwise addition of rows of equal length acts cellwise. -/
theorem getD_zipWith_add (r : List Rat) :
    ∀ (s : List Rat), r.length = s.length → ∀ j : Nat,
      (List.zipWith (fun x y => x + y) r s).getD j 0 = r.getD j 0 + s.getD j 0 := by
  induction r with
  | nil =>
    intro s hl j
    cases s with
    | nil => simp
    | cons y s2 => simp at hl
  | cons x r2 ih =>
    intro s hl j
    cases s with
    | nil => simp at hl
    | cons y s2 =>
      cases j with
      | zero => simp
      | succ j2 =>
        simp only [List.zipWith_cons_cons, List.getD_cons_succ]
        exact ih s2 (by simpa using hl) j2

/-- Addition of grids with equal row counts and pairwise equal row lengths
acts cellwise. -/
theorem cellAt_addGrid_of_rows (g1 : Grid) :
    ∀ (g2 : Grid), g1.length = g2.length →
      (∀ n : Nat, (g1.getD n []).length = (g2.getD n []).length) →
      ∀ i j : Nat, cellAt (addGrid g1 g2) i j = cellAt g1 i j + cellAt g2 i j := by
  induction g1 with
  | nil =>
    intro g2 hl _ i j
    cases g2 with
    | nil => simp [addGrid, cellAt]
    | cons s t => simp at hl
  | cons r t1 ih =>
    intro g2 hl hrow i j
    cases g2 with
    | nil => simp at hl
    | cons s t2 =>
      cases i with
      | zero =>
        simp only [addGrid, List.zipWith_cons_cons, cellAt, List.getD_cons_zero]
        exact getD_zipWith_add r s (by simpa using hrow 0) j
      | succ i2 =>
        have h2 := ih t2 (by simpa using hl) (fun n => by simpa using hrow (n + 1)) i2 j
        simpa [addGrid, cellAt, List.getD_cons_succ] using h2

/-- Rows of a grid of shape `hh × ww` have length `ww` at every index, with
the out-of-range default `[]` giving length `0` on both sides. -/
theorem getD_length_of_hasShape {g1 g2 : Grid} {hh ww : Nat}
    (h1 : HasShape g1 hh ww) (h2 : HasShape g2 hh ww) (n : Nat) :
    (g1.getD n []).length = (g2.getD n []).length := by
  obtain ⟨hl1, hr1⟩ := h1
  obtain ⟨hl2, hr2⟩ := h2
  simp only [List.getD_eq_getElem?_getD]
  by_cases hn : n < hh
  · have hn1 : n < g1.length := by omega
    have hn2 : n < g2.length := by omega
    rw [List.getElem?_eq_getElem hn1, List.getElem?_eq_getElem hn2]
    simp only [Option.getD_some]
    rw [hr1 _ (List.getElem_mem hn1), hr2 _ (List.getElem_mem hn2)]
  · have hn1 : g1.length ≤ n := by omega
    have hn2 : g2.length ≤ n := by omega
    rw [List.getElem?_eq_none hn1, List.getElem?_eq_none hn2]

/-- Addition of two grids of the same shape acts cellwise. -/
theorem cellAt_addGrid {g1 g2 : Grid} {hh ww : Nat}
    (h1 : HasShape g1 hh ww) (h2 : HasShape g2 hh ww) (i j : Nat) :
    cellAt (addGrid g1 g2) i j = cellAt g1 i j + cellAt g2 i j :=
  cellAt_addGrid_of_rows g1 g2 (h1.1.trans h2.1.symm)
    (getD_length_of_hasShape h1 h2) i j

/-- Scaling preserves the shape of a grid. -/
theorem hasShape_scaleGrid {g : Grid} {hh ww : Nat} (h : HasShape g hh ww)
    (w : Rat) : HasShape (scaleGrid g w) hh ww := by
  rcases h with ⟨hl, hr⟩
  constructor
  · simpa [scaleGrid] using hl
  · intro row hrow
    rcases List.mem_map.mp hrow with ⟨r, hrm, hreq⟩
    simpa [← hreq] using hr r hrm

/-- Addition of two grids of the same shape preserves that shape. -/
theorem hasShape_addGrid {g1 g2 : Grid} {hh ww : Nat}
    (h1 : HasShape g1 hh ww) (h2 : HasShape g2 hh ww) :
    HasShape (addGrid g1 g2) hh ww := by
  constructor
  · simp [addGrid, List.length_zipWith, h1.1, h2.1]
  · intro row hrow
    rcases List.mem_iff_getElem.mp hrow with ⟨n, hn, hreq⟩
    have hlen : (addGrid g1 g2).length = hh := by
      simp [addGrid, List.length_zipWith, h1.1, h2.1]
    have hg1 : g1.length = hh := h1.1
    have hg2 : g2.length = hh := h2.1
    have hn1 : n < g1.length := by omega
    have hn2 : n < g2.length := by omega
    have : (addGrid g1 g2)[n] = List.zipWith (fun x y => x + y) g1[n] g2[n] := by
      simp [addGrid]
    rw [← hreq, this]
    have e1 : g1[n].length = ww := h1.2 _ (List.getElem_mem hn1)
    have e2 : g2[n].length = ww := h2.2 _ (List.getElem_mem hn2)
    simp [List.length_zipWith, e1, e2]

/-- Folding elementwise addition over a list of equally shaped grids sums the
cells. -/
theorem cellAt_foldl_addGrid (gs : List Grid) :
    ∀ (g : Grid) (hh ww : Nat), HasShape g hh ww → (∀ x ∈ gs, HasShape x hh ww) →
      ∀ i j : Nat, cellAt (gs.foldl addGrid g) i j =
        cellAt g i j + (gs.map (fun x => cellAt x i j)).sum := by
  induction gs with
  | nil => intro g hh ww _ _ i j; simp
  | cons x rest ih =>
    intro g hh ww hg hgs i j
    have hx : HasShape x hh ww := hgs x (by simp)
    have hrest : ∀ y ∈ rest, HasShape y hh ww := fun y hy => hgs y (by simp [hy])
    rw [List.foldl_cons,
      ih (addGrid g x) hh ww (hasShape_addGrid hg hx) hrest i j,
      cellAt_addGrid hg hx]
    simp only [List.map_cons, List.sum_cons]
    ring

/-- The Python sum of a nonempty list of equally shaped numpy arrays has the
cellwise sums of the list as its cells. -/
theorem cellAt_npSum (s0 : Grid) (srest : List Grid) (hh ww : Nat)
    (h0 : HasShape s0 hh ww) (hrest : ∀ x ∈ srest, HasShape x hh ww)
    (i j : Nat) :
    cellAt (npSum (s0 :: srest)) i j =
      ((s0 :: srest).map (fun x => cellAt x i j)).sum := by
  simp only [npSum, List.map_cons, List.sum_cons]
  exact cellAt_foldl_addGrid srest s0 hh ww h0 hrest i j

/-- C1: for every parallel list of equally shaped input rasters and numeric
weights, the weighted-overlay output grid satisfies
`output[i][j] = Σ_k grid_k[i][j] * weight_k` at every pixel; in particular,
three all-zero rasters with weights `[1, 2, 3]` yield an all-zero output,
and a single 1×1 raster valued `10.0` with weight `0.5` yields output
`5.0`. -/
theorem perform_weighted_overlay_weighted_sum :
    (∀ (fetchBand : String → Grid) (raster_urls : List String) (weights : List Rat)
        (hh ww : Nat),
        raster_urls ≠ [] →
        raster_urls.length = weights.length →
        (∀ g ∈ raster_urls.map fetchBand, HasShape g hh ww) →
        ∃ out : OverlayOut,
          perform_weighted_overlay fetchBand raster_urls weights = .ok out ∧
          ∀ i j : Nat,
            cellAt out.band i j =
              (((raster_urls.map fetchBand).zip weights).map
                (fun p => cellAt p.1 i j * p.2)).sum) ∧
    perform_weighted_overlay (fun _ => [[0, 0], [0, 0]]) ["u1", "u2", "u3"]
        [1, 2, 3] =
      .ok ⟨⟨"/tmp", "result_weighted_overlay", ".tif"⟩, [[0, 0], [0, 0]]⟩ ∧
    perform_weighted_overlay (fun _ => [[10]]) ["u1"] [1 / 2] =
      .ok ⟨⟨"/tmp", "result_weighted_overlay", ".tif"⟩, [[5]]⟩ := by
  refine ⟨?_, ?_, ?_⟩
  · intro fetchBand raster_urls weights hh ww hne hlen hshape
    cases raster_urls with
    | nil => exact absurd rfl hne
    | cons u us =>
      cases weights with
      | nil => simp at hlen
      | cons w ws =>
        refine ⟨⟨⟨"/tmp", "result_weighted_overlay", ".tif"⟩,
          weightedSum ((u :: us).map fetchBand) (w :: ws)⟩, ?_, ?_⟩
        · unfold perform_weighted_overlay
          rw [if_neg (by simp)]
        · intro i j
          have hmapeq : ∀ zl : List (Grid × Rat),
              (zl.map (fun p => scaleGrid p.1 p.2)).map (fun x => cellAt x i j) =
                zl.map (fun p => cellAt p.1 i j * p.2) := by
            intro zl
            rw [List.map_map]
            exact List.map_congr_left (fun p _ => cellAt_scaleGrid p.1 p.2 i j)
          show cellAt (weightedSum ((u :: us).map fetchBand) (w :: ws)) i j = _
          unfold weightedSum
          simp only [List.map_cons, List.zip_cons_cons]
          have hshape0 : HasShape (scaleGrid (fetchBand u) w) hh ww :=
            hasShape_scaleGrid (hshape (fetchBand u) (by simp)) w
          have hrest : ∀ x ∈ ((us.map fetchBand).zip ws).map (fun p => scaleGrid p.1 p.2),
              HasShape x hh ww := by
            intro x hx
            rcases List.mem_map.mp hx with ⟨⟨p1, p2⟩, hp, hpe⟩
            have hp1 : p1 ∈ us.map fetchBand := (List.of_mem_zip hp).1
            have hs1 : HasShape p1 hh ww := by
              refine hshape p1 ?_
              simp only [List.map_cons]
              exact List.mem_cons_of_mem _ hp1
            simpa [← hpe] using hasShape_scaleGrid hs1 p2
          rw [cellAt_npSum _ _ hh ww hshape0 hrest i j]
          rw [show (scaleGrid (fetchBand u) w ::
                ((us.map fetchBand).zip ws).map (fun p => scaleGrid p.1 p.2)) =
              (((fetchBand u, w) :: (us.map fetchBand).zip ws).map
                (fun p => scaleGrid p.1 p.2)) from rfl]
          rw [hmapeq]
          simp
  · unfold perform_weighted_overlay
    rw [if_neg (by simp)]
    norm_num [weightedSum, npSum, scaleGrid, addGrid]
  · unfold perform_weighted_overlay
    rw [if_neg (by simp)]
    norm_num [weightedSum, npSum, scaleGrid, addGrid]

/-- Witness for C1: a single 1×1 raster valued 10 with weight 1/2 gives a
successful output whose cell value is 5, obtained from the general theorem
at that input. -/
theorem perform_weighted_overlay_weighted_sum_witness :
    (perform_weighted_overlay (fun _ => [[10]]) ["u1"] [1 / 2]).map
      (fun o => cellAt o.band 0 0) = .ok 5 := by
  obtain ⟨out, hok, hcell⟩ := perform_weighted_overlay_weighted_sum.1
    (fun _ => [[10]]) ["u1"] [1 / 2] 1 1 (by decide) (by decide) (by decide)
  have h5 := hcell 0 0
  norm_num [cellAt] at h5
  rw [hok]
  simp [Except.map, cellAt, h5]

/-- C10 counterexample: with one supplied raster and an empty weight list —
lists of different lengths — the operation does fail: the zip is empty,
Python's `sum` returns the scalar `0` and `weighted_overlay.shape[0]` at
line 290 raises an AttributeError, refuting the claim that unequal-length
inputs never fail. -/
theorem perform_weighted_overlay_unequal_counterexample :
    (["a"] : List String).length ≠ ([] : List Rat).length ∧
    perform_weighted_overlay (fun _ => [[3]]) ["a"] [] =
      .error (McdaError.attributeError "int object has no attribute shape") := by
  constructor
  · decide
  · rfl

/-- C10 amended: the overlay computes exactly what the first `min(n, m)`
raster/weight pairs give — the surplus rasters or weights are silently
ignored — and it succeeds whenever at least one pair exists
(`min(n, m) ≥ 1`; with no pair the scalar sum has no shape and the
operation fails); for the concrete unequal-length input of two rasters
`[[3]]` with the single weight `[2]`, the result differs from the full
weighted sum over both supplied rasters under every nonzero completion of
the missing weight. -/
theorem perform_weighted_overlay_zip_truncation :
    (∀ (fetchBand : String → Grid) (raster_urls : List String) (weights : List Rat),
        perform_weighted_overlay fetchBand raster_urls weights =
          perform_weighted_overlay fetchBand
            (raster_urls.take (min raster_urls.length weights.length))
            (weights.take (min raster_urls.length weights.length))) ∧
    (∀ (fetchBand : String → Grid) (raster_urls : List String) (weights : List Rat),
        0 < min raster_urls.length weights.length →
        ∃ out : OverlayOut,
          perform_weighted_overlay fetchBand raster_urls weights = .ok out) ∧
    (∀ w : Rat, w ≠ 0 →
        perform_weighted_overlay (fun _ => [[3]]) ["a", "b"] [2] ≠
          perform_weighted_overlay (fun _ => [[3]]) ["a", "b"] [2, w]) := by
  refine ⟨?_, ?_, ?_⟩
  · intro fetchBand raster_urls weights
    unfold perform_weighted_overlay weightedSum
    rw [List.map_take]
    have hz := List.zip_eq_zip_take_min (raster_urls.map fetchBand) weights
    rw [List.length_map] at hz
    rw [← hz]
  · intro fetchBand raster_urls weights hmin
    cases raster_urls with
    | nil => simp at hmin
    | cons u us =>
      cases weights with
      | nil => simp at hmin
      | cons w ws =>
        refine ⟨⟨⟨"/tmp", "result_weighted_overlay", ".tif"⟩,
          weightedSum ((u :: us).map fetchBand) (w :: ws)⟩, ?_⟩
        unfold perform_weighted_overlay
        rw [if_neg (by simp)]
  · intro w hw heq
    have h1 : perform_weighted_overlay (fun _ => [[3]]) ["a", "b"] [2] =
        .ok ⟨⟨"/tmp", "result_weighted_overlay", ".tif"⟩, [[6]]⟩ := by
      unfold perform_weighted_overlay
      rw [if_neg (by simp)]
      norm_num [weightedSum, npSum, scaleGrid, addGrid]
    have h2 : perform_weighted_overlay (fun _ => [[3]]) ["a", "b"] [2, w] =
        .ok ⟨⟨"/tmp", "result_weighted_overlay", ".tif"⟩, [[6 + 3 * w]]⟩ := by
      unfold perform_weighted_overlay
      rw [if_neg (by simp)]
      norm_num [weightedSum, npSum, scaleGrid, addGrid]
    rw [h1, h2] at heq
    have h6 : (6 : Rat) = 6 + 3 * w := by simpa using heq
    have h3 : (3 : Rat) * w = 0 := by linarith
    rcases mul_eq_zero.mp h3 with h30 | hww
    · norm_num at h30
    · exact hw hww

/-- Witness for C10 (amended): with two supplied rasters and one weight, the
overlay differs from the two-raster weighted sum obtained by completing the
missing weight with 1. -/
theorem perform_weighted_overlay_zip_truncation_witness :
    perform_weighted_overlay (fun _ => [[3]]) ["a", "b"] [2] ≠
      perform_weighted_overlay (fun _ => [[3]]) ["a", "b"] [2, 1] :=
  perform_weighted_overlay_zip_truncation.2.2 1 (by norm_num)

/-- Inside the grid, a cell of the burn array is the `burnCell` fold over
the (geometry, id) pairs. -/
theorem rasterizedGrid_cell (geoms : List Geometry) (hh ww i j : Nat)
    (hi : i < hh) (hj : j < ww) :
    ((rasterizedGrid geoms hh ww).getD i []).getD j 0 =
      burnCell (geoms.zip ((List.range geoms.length).map Int.ofNat)) (-99999) i j := by
  unfold rasterizedGrid
  simp only [List.getD_eq_getElem?_getD, List.getElem?_map, List.getElem?_range hi,
    List.getElem?_range hj, Option.map_some', Option.getD_some]

/-- A replace-merge fold over pairs none of which touches the cell leaves
the accumulator unchanged. -/
theorem foldl_replace_no_touch (i j : Nat) (l : List (Geometry × Int)) :
    ∀ acc : Int, (∀ p ∈ l, p.1.touches i j = false) →
      l.foldl (fun acc p => if p.1.touches i j then p.2 else acc) acc = acc := by
  induction l with
  | nil => intro acc _; rfl
  | cons p t ih =>
    intro acc hall
    have hp : p.1.touches i j = false := hall p (List.mem_cons_self p t)
    simp only [List.foldl_cons, hp, Bool.false_eq_true, if_false]
    exact ih acc (fun q hq => hall q (List.mem_cons_of_mem p hq))

/-- With replace merge, a cell touched by feature `k` and by no later
feature is burned with the value `k`. -/
theorem burnCell_last_touch (geoms : List Geometry) (fill : Int) (i j k : Nat)
    (hk : k < geoms.length)
    (ht : geoms[k].touches i j = true)
    (hlast : ∀ m : Nat, (hm : m < geoms.length) → k < m →
      geoms[m].touches i j = false) :
    burnCell (geoms.zip ((List.range geoms.length).map Int.ofNat)) fill i j =
      Int.ofNat k := by
  unfold burnCell
  set l := geoms.zip ((List.range geoms.length).map Int.ofNat) with hl
  have hkq : l[k]? = some (geoms[k], Int.ofNat k) := by
    rw [hl, List.getElem?_zip_eq_some]
    constructor
    · exact List.getElem?_eq_getElem hk
    · rw [List.getElem?_map, List.getElem?_range hk]
      rfl
  have hdrop : ∀ p ∈ l.drop (k + 1), p.1.touches i j = false := by
    intro p hp
    rcases List.mem_iff_getElem?.mp hp with ⟨m, hpm⟩
    rw [List.getElem?_drop, hl, List.getElem?_zip_eq_some] at hpm
    have h1 := hpm.1
    have hmm : k + 1 + m < geoms.length := by
      by_contra hcon
      rw [List.getElem?_eq_none (by omega)] at h1
      exact Option.noConfusion h1
    rw [List.getElem?_eq_getElem hmm] at h1
    rw [(Option.some.inj h1).symm]
    exact hlast (k + 1 + m) hmm (by omega)
  rw [← List.take_append_drop (k + 1) l, List.foldl_append]
  rw [foldl_replace_no_touch i j (l.drop (k + 1)) _ hdrop]
  rw [List.take_succ, hkq]
  simp only [Option.toList_some, List.foldl_append, List.foldl_cons, List.foldl_nil]
  rw [ht]
  simp

/-- C5 counterexample: with two overlapping features that both touch cell
(0,0) of a 1×1 grid, replace-merge burning leaves the cell holding the
second feature's ID 1, so the first touching feature does not receive its
ID 0 there: the claim that any touched cell receives the touching
geometry's ID fails as stated. -/
theorem rasterize_ids_counterexample :
    ¬ (∀ (geoms : List Geometry) (hh ww k i j : Nat) (hk : k < geoms.length),
        i < hh → j < ww → geoms[k].touches i j = true →
        ((rasterizedGrid geoms hh ww).getD i []).getD j 0 = Int.ofNat k) := by
  intro hclaim
  have h0 := hclaim [geomAll, geomAll] 1 1 0 0 0 (by simp) (by omega) (by omega) rfl
  have h1 : ((rasterizedGrid [geomAll, geomAll] 1 1).getD 0 []).getD 0 0 = 1 := rfl
  rw [h1] at h0
  exact absurd h0 (by decide)

/-- C5 amended: the rasterizer pairs the features with the IDs `0..n-1` in
iteration order, and with all-touched burning under the source's replace
merge a grid cell touched by feature `k` and by no later feature is burned
with ID `k` (the last touching feature wins at cells several features
touch). -/
theorem rasterize_ids_last_touching (geoms : List Geometry) (hh ww k i j : Nat)
    (hk : k < geoms.length) (hi : i < hh) (hj : j < ww)
    (ht : geoms[k].touches i j = true)
    (hlast : ∀ m : Nat, (hm : m < geoms.length) → k < m →
      geoms[m].touches i j = false) :
    ((rasterizedGrid geoms hh ww).getD i []).getD j 0 = Int.ofNat k := by
  rw [rasterizedGrid_cell geoms hh ww i j hi hj]
  exact burnCell_last_touch geoms (-99999) i j k hk ht hlast

/-- Witness for C5 (amended): on a 1×1 grid with a touching first feature
and a non-touching second feature, the cell receives ID 0. -/
theorem rasterize_ids_last_touching_witness :
    ((rasterizedGrid [geomAll, geomNone] 1 1).getD 0 []).getD 0 0 = Int.ofNat 0 := by
  refine rasterize_ids_last_touching [geomAll, geomNone] 1 1 0 0 0
    (by simp) (by omega) (by omega) rfl ?_
  intro m hm h0
  have hm2 : m < 2 := by simpa using hm
  interval_cases m
  rfl

/-- C2: the rasterizer computes its grid in memory with background fill
`-99999`, but creates the output file with `dtype=uint8` and a single band,
so every written cell is the in-memory value narrowed to uint8; the
narrowing preserves neither any feature ID above 255 nor the negative fill
sentinel. -/
theorem rasterize_vector_uint8_narrowing :
    (∀ (file_paths : List FPath) (readVector : FPath → List Geometry)
        (raster : RefRaster) (vp : FPath),
        file_paths.find? (fun p => p.suffix == ".shp") = some vp →
        ∃ out : OutRaster,
          rasterize_vector file_paths readVector raster = .ok out ∧
          out.dtype = DType.uint8 ∧ out.count = 1 ∧
          out.band = (rasterizedGrid (readVector vp) raster.height raster.width).map
            (fun row => row.map narrowU8)) ∧
    (∀ (geoms : List Geometry) (hh ww i j : Nat), i < hh → j < ww →
        (∀ g ∈ geoms, g.touches i j = false) →
        ((rasterizedGrid geoms hh ww).getD i []).getD j 0 = -99999) ∧
    (∀ v : Int, 255 < v → narrowU8 v ≠ v) ∧
    narrowU8 (-99999) ≠ -99999 := by
  refine ⟨?_, ?_, ?_, by decide⟩
  · intro file_paths readVector raster vp hfind
    unfold rasterize_vector
    rw [hfind]
    exact ⟨_, rfl, rfl, rfl, rfl⟩
  · intro geoms hh ww i j hi hj hnone
    rw [rasterizedGrid_cell geoms hh ww i j hi hj]
    unfold burnCell
    refine foldl_replace_no_touch i j _ _ ?_
    intro p hp
    rcases p with ⟨p1, p2⟩
    exact hnone p1 (List.of_mem_zip hp).1
  · intro v hv
    simp only [narrowU8]
    omega

/-- Witness for C2: the feature ID 300 is not preserved by the uint8
narrowing. -/
theorem rasterize_vector_uint8_narrowing_witness : narrowU8 300 ≠ 300 :=
  rasterize_vector_uint8_narrowing.2.2.1 300 (by norm_num)

/-- C3: the rasterizer's output has exactly the reference raster's GridSpec:
the same width and height, the same affine transform and the same CRS. -/
theorem rasterize_vector_gridspec (file_paths : List FPath)
    (readVector : FPath → List Geometry) (raster : RefRaster) (out : OutRaster)
    (hok : rasterize_vector file_paths readVector raster = .ok out) :
    out.width = raster.width ∧ out.height = raster.height ∧
    out.transform = raster.transform ∧ out.crs = raster.crs := by
  unfold rasterize_vector at hok
  cases hfind : file_paths.find? (fun p => p.suffix == ".shp") with
  | none => rw [hfind] at hok; simp at hok
  | some vp =>
    rw [hfind] at hok
    cases hok
    exact ⟨rfl, rfl, rfl, rfl⟩

/-- Witness for C3: on the concrete fixtures the output raster carries the
reference raster's shape, transform and CRS. -/
theorem rasterize_vector_gridspec_witness :
    outR.width = refR.width ∧ outR.height = refR.height ∧
    outR.transform = refR.transform ∧ outR.crs = refR.crs :=
  rasterize_vector_gridspec fpsShp readNone refR outR rfl

/-- C4: when no path in the input list has the vector-format extension
`.shp`, the rasterizer fails with the MissingPrimaryFile error before doing
anything else. -/
theorem rasterize_vector_missing_primary (file_paths : List FPath)
    (readVector : FPath → List Geometry) (raster : RefRaster)
    (hnone : ∀ p ∈ file_paths, p.suffix ≠ ".shp") :
    rasterize_vector file_paths readVector raster =
      .error McdaError.missingPrimaryFile := by
  have hfind : file_paths.find? (fun p => p.suffix == ".shp") = none := by
    rw [List.find?_eq_none]
    intro p hp
    simpa using hnone p hp
  unfold rasterize_vector
  rw [hfind]

/-- Witness for C4: a list holding only `.dbf` and `.shx` companions makes
the rasterizer fail with MissingPrimaryFile. -/
theorem rasterize_vector_missing_primary_witness :
    rasterize_vector fpsNoShp readNone refR =
      .error McdaError.missingPrimaryFile :=
  rasterize_vector_missing_primary fpsNoShp readNone refR (by decide)

/-- C6: masking crops the output extent to the combined bounding envelope of
the mask geometries, recomputes the affine transform for the cropped extent,
sets every pixel outside all geometries to the nodata sentinel while pixels
inside some geometry keep their source values, carries the CRS, band count,
dtype and nodata over unchanged, and writes to `<raster-stem>_masked.tif`. -/
theorem mask_raster_spec (raster : SrcRaster) (g : MaskGeom) (gs : List MaskGeom)
    (out : SrcRaster) (hok : mask_raster raster (g :: gs) = some out) :
    out.path = ⟨raster.path.parent, raster.path.stem ++ "_masked", ".tif"⟩ ∧
    out.crs = raster.crs ∧ out.count = raster.count ∧ out.dtype = raster.dtype ∧
    out.nodata = raster.nodata ∧
    out.height = envRmax g gs + 1 - envRmin g gs ∧
    out.width = envCmax g gs + 1 - envCmin g gs ∧
    out.transform =
      { a := raster.transform.a
        b := raster.transform.b
        c := raster.transform.c + raster.transform.a * (envCmin g gs : Rat) +
          raster.transform.b * (envRmin g gs : Rat)
        d := raster.transform.d
        e := raster.transform.e
        f := raster.transform.f + raster.transform.d * (envCmin g gs : Rat) +
          raster.transform.e * (envRmin g gs : Rat) } ∧
    (∀ i j : Nat,
      (g :: gs).any (fun s => s.inside (envRmin g gs + i) (envCmin g gs + j)) = false →
      out.data i j = raster.nodata) ∧
    (∀ i j : Nat,
      (g :: gs).any (fun s => s.inside (envRmin g gs + i) (envCmin g gs + j)) = true →
      out.data i j = raster.data (envRmin g gs + i) (envCmin g gs + j)) := by
  simp only [mask_raster, rioMask] at hok
  cases hok
  refine ⟨rfl, rfl, rfl, rfl, rfl, rfl, rfl, rfl, ?_, ?_⟩
  · intro i j hout
    simp [hout]
  · intro i j hin
    simp [hin]

/-- Witness for C6: on the concrete fixtures, the pixel at (0, 1) of the
masked output — inside the cropped window but outside the geometry — holds
the nodata sentinel. -/
theorem mask_raster_spec_witness :
    (mask_raster srcR [maskG]).map (fun o => o.data 0 1) = some (-1) := by
  cases hm : mask_raster srcR [maskG] with
  | none => simp [mask_raster, rioMask] at hm
  | some out =>
    have h := (mask_raster_spec srcR maskG [] out hm).2.2.2.2.2.2.2.2.1 0 1 (by decide)
    simp only [Option.map_some']
    rw [h]
    rfl

/-- C7: storing bytes under a key and fetching them back through the address
returned for that key yields byte-identical content; a later put to the same
key overwrites the previous content with no history; the same round trip
holds through `upload_to_minio`. -/
theorem put_presigned_get_roundtrip :
    (∀ (s : Store) (key : String) (content : List Nat),
        get_raster_from_presigned_url (put_object s key content)
          (presigned_get_object key) = .ok content) ∧
    (∀ (s : Store) (key : String) (c1 c2 : List Nat),
        get_raster_from_presigned_url (put_object (put_object s key c1) key c2)
          (presigned_get_object key) = .ok c2) ∧
    (∀ (s : Store) (f : LocalFile),
        get_raster_from_presigned_url (upload_to_minio s [f]).1
          (presigned_get_object ("mcda/" ++ f.path.stem ++ f.path.suffix)) =
          .ok f.content) := by
  refine ⟨?_, ?_, ?_⟩ <;> intros <;>
    simp [get_raster_from_presigned_url, put_object, presigned_get_object,
      upload_to_minio]

/-- C8: the buffer stage returns exactly the ordered component paths
`<stem>_buffered.{shp, shx, dbf, cpg, prj}`, on success all five exist, and
it fails with the source's HTTP 500 storage error whenever any expected
companion file is missing after the write. -/
theorem perform_buffer_analysis_outputs (Geo : Type) (bufferBy : Geo → Rat → Geo)
    (fs : FPath → Bool) (file_path : FPath) (gdf : GeoDataFrame Geo) :
    (∀ (out : GeoDataFrame Geo) (paths : List FPath),
        perform_buffer_analysis bufferBy fs file_path gdf = .ok (out, paths) →
        paths = buffered_output_files file_path ∧ ∀ p ∈ paths, fs p = true) ∧
    ((∃ p ∈ buffered_output_files file_path, fs p = false) →
        perform_buffer_analysis bufferBy fs file_path gdf =
          .error (McdaError.httpException 500
            "Failed to save all the buffered shapefile components")) := by
  constructor
  · intro out paths hok
    unfold perform_buffer_analysis at hok
    by_cases hall : (buffered_output_files file_path).all fs = true
    · rw [if_pos hall] at hok
      cases hok
      exact ⟨rfl, by simpa [List.all_eq_true] using hall⟩
    · rw [if_neg hall] at hok
      exact absurd hok (by simp)
  · intro hex
    have hnall : ¬ (buffered_output_files file_path).all fs = true := by
      rcases hex with ⟨p, hp, hfs⟩
      simp only [List.all_eq_true]
      intro hall
      rw [hall p hp] at hfs
      exact Bool.noConfusion hfs
    unfold perform_buffer_analysis
    rw [if_neg hnall]

/-- Witness for C8: on a filesystem where every path exists the stage
succeeds, and the returned primary component path exists. -/
theorem perform_buffer_analysis_outputs_witness :
    fsAll (⟨"/tmp", "river_dang_buffered", ".shp"⟩ : FPath) = true :=
  ((perform_buffer_analysis_outputs Unit bufId fsAll bufPath gdfNoCrs).1
    ⟨some 4326, []⟩ (buffered_output_files bufPath) rfl).2
    ⟨"/tmp", "river_dang_buffered", ".shp"⟩ (by decide)

/-- C9: a vector input without a CRS is assigned EPSG:4326 before buffering,
so the buffered output's CRS equals EPSG:4326; an input that already has a
CRS keeps it unchanged. -/
theorem perform_buffer_analysis_crs (Geo : Type) (bufferBy : Geo → Rat → Geo)
    (fs : FPath → Bool) (file_path : FPath) (gdf : GeoDataFrame Geo)
    (out : GeoDataFrame Geo) (paths : List FPath)
    (hok : perform_buffer_analysis bufferBy fs file_path gdf = .ok (out, paths)) :
    (gdf.crs = none → out.crs = some 4326) ∧
    (∀ c : Nat, gdf.crs = some c → out.crs = some c) := by
  unfold perform_buffer_analysis at hok
  by_cases hall : (buffered_output_files file_path).all fs = true
  · rw [if_pos hall] at hok
    cases hok
    constructor
    · intro hnone
      simp [hnone]
    · intro c hc
      simp [hc]
  · rw [if_neg hall] at hok
    exact absurd hok (by simp)

/-- Witness for C9: buffering the CRS-less fixture dataset yields a dataset
whose CRS is EPSG:4326. -/
theorem perform_buffer_analysis_crs_witness :
    (⟨some 4326, []⟩ : GeoDataFrame Unit).crs = some 4326 :=
  (perform_buffer_analysis_crs Unit bufId fsAll bufPath gdfNoCrs
    ⟨some 4326, []⟩ (buffered_output_files bufPath) rfl).1 rfl

end Mcda
